import Mathlib

/-!
# Verification development for the MITunaX job-scheduling core

Shallow embedding of the distributed tuning scheduler's core operations:

* the job claim protocol (`get_job_objs` / `compose_work_objs` /
  `gen_select_objs` from `tuna/miopen/miopen_lib.py` and
  `tuna/utils/db_utility.py`),
* eval-result ingestion and its retry bookkeeping
  (`process_eval_results`),
* the store retry/backoff helper (`session_retry`),
* the RocMLIR worker poll step (`tuna/rocmlir/rocmlir_worker.py`),
* worker-pool composition (`compose_worker_list`),
* fin-step argument checking (`check_fin_args`).

Machine rows are modelled as records, the relational store as a list of
rows, and the generated `SELECT ... WHERE ... ORDER BY retries,config ASC
LIMIT n FOR UPDATE SKIP LOCKED` query by filtering, sorting and truncating
that list.  Fallible store interaction is modelled with `Option`/`Except`.
-/

namespace MITunaX

/-! ## SQL LIKE-style substring matching

`compose_work_objs` emits `fin_step like '%{step}%'`: the column value must
contain the step string as a substring. -/

/-- `listInfix pat l` is true iff `pat` occurs as a contiguous sublist of `l`
(the semantics of SQL `LIKE '%pat%'` on character lists). -/
def listInfix (pat : List Char) : List Char → Bool
  | [] => pat.isEmpty
  | c :: rest => pat.isPrefixOf (c :: rest) || listInfix pat rest

/-- SQL `col LIKE '%pat%'`: `s` contains `pat` as a substring. -/
def sqlLikeContains (pat s : String) : Bool :=
  listInfix pat.toList s.toList

/-! ## Job rows and the claim protocol -/

/-- A row of the job table, with the columns the claim conditions read.
`locked` models whether another claimant currently holds the row's lock
(`FOR UPDATE SKIP LOCKED` bypasses such rows). -/
structure JobRow where
  id : Nat
  session : Nat
  valid : Nat
  retries : Nat
  config : Nat
  state : String
  reason : String
  fin_step : String
  locked : Bool
deriving DecidableEq, Repr

/-- The `ORDER BY retries,config ASC` comparison: lexicographic on
(retries, config id). -/
def JobOrder (a b : JobRow) : Prop :=
  a.retries < b.retries ∨ (a.retries = b.retries ∧ a.config ≤ b.config)

instance : DecidableRel JobOrder := fun _ _ =>
  inferInstanceAs (Decidable (_ ∨ _))

instance : IsTotal JobRow JobOrder :=
  ⟨fun a b => by unfold JobOrder; omega⟩

instance : IsTrans JobRow JobOrder :=
  ⟨fun a b c => by unfold JobOrder; omega⟩

/-- The fin-step condition appended by `compose_work_objs`:
`fin_step like '%{fin_steps[0]}%'` when a fin-step list is given (Python
truthiness: a nonempty list), else `fin_step='not_fin'`. -/
def finStepCond (fin_steps : List String) (r : JobRow) : Bool :=
  match fin_steps with
  | [] => decide (r.fin_step = "not_fin")
  | s :: _ => sqlLikeContains s r.fin_step

/-- The conditions built by `get_job_objs`:
`session={id}`, `valid=1`, optionally `reason='{label}'` (only when the
label is truthy), `retries<{max_job_retries}`, `state in (...)`. -/
def baseJobConds (sessId : Nat) (label : Option String) (maxJobRetries : Nat)
    (find_state : List String) (r : JobRow) : Bool :=
  decide (r.session = sessId) && decide (r.valid = 1) &&
  (match label with
   | some l => decide (r.reason = l)
   | none => true) &&
  decide (r.retries < maxJobRetries) &&
  decide (r.state ∈ find_state)

/-- Semantics of executing the generated claim query against a table:
`WHERE` filters the rows (and `SKIP LOCKED` drops rows locked elsewhere),
`ORDER BY retries,config ASC` sorts, `LIMIT n` truncates (`claim_num=None`
emits no LIMIT clause). -/
def runClaimQuery (table : List JobRow) (cond : JobRow → Bool)
    (claim_num : Option Nat) : List JobRow :=
  let eligible := table.filter (fun r => cond r && !r.locked)
  let sorted := eligible.insertionSort JobOrder
  match claim_num with
  | some n => sorted.take n
  | none => sorted

/-- `gen_select_objs` (tuna/utils/db_utility.py): executes the select; when
the store raises, `get_job_rows` returns `None` and so does
`gen_select_objs` (modelled by `storeOk = false`); otherwise the returned
rowset — possibly empty — is materialized into objects. -/
def gen_select_objs (storeOk : Bool) (table : List JobRow)
    (cond : JobRow → Bool) (claim_num : Option Nat) : Option (List JobRow) :=
  if storeOk then some (runClaimQuery table cond claim_num) else none

/-- `compose_work_objs` (tuna/miopen/miopen_lib.py): appends the fin-step
condition and the `ORDER BY retries,config ASC [LIMIT n] FOR UPDATE SKIP
LOCKED` suffix, then runs the select. -/
def compose_work_objs (storeOk : Bool) (table : List JobRow)
    (conds : JobRow → Bool) (fin_steps : List String)
    (claim_num : Option Nat) : Option (List JobRow) :=
  gen_select_objs storeOk table (fun r => conds r && finStepCond fin_steps r)
    claim_num

/-- `get_job_objs` (tuna/miopen/miopen_lib.py): builds the session /
validity / label / retry-bound / state conditions and claims through
`compose_work_objs`. -/
def get_job_objs (storeOk : Bool) (table : List JobRow) (sessId : Nat)
    (find_state : List String) (label : Option String) (maxJobRetries : Nat)
    (claim_num : Option Nat) (fin_steps : List String) :
    Option (List JobRow) :=
  compose_work_objs storeOk table
    (baseJobConds sessId label maxJobRetries find_state) fin_steps claim_num

/-! ## Eval-result ingestion (tuna/miopen/miopen_lib.py) -/

/-- `MAX_ERRORED_JOB_RETRIES` (miopen_lib.py line 72). -/
def MAX_ERRORED_JOB_RETRIES : Nat := 3

/-- The mutable job fields touched by result ingestion. -/
structure Job where
  state : String
  retries : Nat
  result : String
deriving DecidableEq, Repr

/-- Modelled from the spec: `set_job_state` lives in
`tuna/miopen/utils/helper.py`, which is not under src/.  Per the spec's
state machine (result ingestion sets the job's state; the revert path
additionally says "increment `retries`") and the call sites in
`miopen_lib.py` — which pass `increment_retries=True` only when reverting
to the prior stable state, and pass `False` (or omit it) for the
`errored` / `compiled` / `evaluated` transitions — it writes the given
state, increments `retries` exactly when `increment_retries` is set, and
overwrites the result text. -/
def set_job_state (job : Job) (state : String) (increment_retries : Bool)
    (result : String) : Job :=
  { state := state
    retries := if increment_retries then job.retries + 1 else job.retries
    result := result }

/-- Which tagged eval payload `fin_json` carries. -/
inductive EvalResultKind
  | findEval
  | perfEval
deriving DecidableEq, Repr

/-- Store exceptions caught by the ingestion handlers. -/
inductive StoreErr
  | opErr
  | integrityErr
deriving DecidableEq, Repr

/-- Everything `process_eval_results` leaves behind: the updated job row,
whether `session.rollback()` ran, whether `clean_cache_table` ran, and the
function's return value. -/
structure EvalOutcome where
  job : Job
  rolledBack : Bool
  cacheCleaned : Bool
  ret : Bool
deriving DecidableEq, Repr

/-- The failure path of `process_eval_results`: at
`retries >= MAX_ERRORED_JOB_RETRIES - 1` the job is moved to `errored`
(no retry increment is requested); below that it is reset to `compiled`
with `increment_retries=True`. -/
def evalFailBranch (job : Job) (result_str : String) : EvalOutcome :=
  if job.retries ≥ MAX_ERRORED_JOB_RETRIES - 1 then
    { job := set_job_state job "errored" false result_str
      rolledBack := false, cacheCleaned := false, ret := true }
  else
    { job := set_job_state job "compiled" true result_str
      rolledBack := false, cacheCleaned := false, ret := true }

/-- Shallow embedding of `MIOpen.process_eval_results`.  The inner
processing step (`process_fdb_w_kernels` plus `get_fin_result`, in
`tuna/miopen/utils/json_to_sql.py` and `tuna/miopen/worker/fin_utils.py`,
not under src/) is abstracted by its outcome `inner`: either a store
error raised mid-update (caught by the
`except (OperationalError, IntegrityError)` handler, which rolls back and
then sets the job to `errored`), or the `(success, result_str)` pair
obtained from `get_fin_result`.  With no `fin_json`, `failed_job` keeps
its initial `True` and the retry bookkeeping runs. -/
def process_eval_results (job : Job) (fin_json : Option EvalResultKind)
    (inner : Except StoreErr (Bool × String)) : EvalOutcome :=
  match fin_json with
  | none => evalFailBranch job ""
  | some _ =>
    match inner with
    | .error _ =>
      { job := set_job_state job "errored" false ""
        rolledBack := true, cacheCleaned := false, ret := true }
    | .ok (success, result_str) =>
      if success then
        { job := set_job_state job "evaluated" false result_str
          rolledBack := false, cacheCleaned := true, ret := true }
      else evalFailBranch job result_str

/-- One failed evaluation ingestion, as it affects the job row. -/
def evalIngestFail (job : Job) : Job :=
  (process_eval_results job (some .findEval) (.ok (false, "fail"))).job

/-- One successful evaluation ingestion, as it affects the job row. -/
def evalIngestOk (job : Job) : Job :=
  (process_eval_results job (some .findEval) (.ok (true, "ok"))).job

/-! ## The retry/backoff helper `session_retry` (tuna/utils/db_utility.py)

`NUM_SQL_RETRIES` comes from `tuna/utils/metadata.py`, which is not under
src/; the helper is embedded parameterized by it.  The random sleep
`sleep(random.randint(1, 30))` is embedded by a caller-supplied stream
`rng` of raw draws, with `randint a b` mapping a draw into `[a, b]`
(inclusive on both ends, as in Python). -/

/-- What one invocation of the actuator does: return a value, raise a
transient operational error (SQLAlchemy or pymysql flavour), or raise an
integrity error. -/
inductive AttemptRes (α : Type)
  | ok (v : α)
  | opErr
  | pymysqlOpErr
  | integrityErr
deriving DecidableEq, Repr

/-- `x` is one of the two transient operational-error flavours. -/
def AttemptRes.transient {α : Type} : AttemptRes α → Bool
  | .opErr => true
  | .pymysqlOpErr => true
  | _ => false

/-- Observable effects of `session_retry`: invoking the actuator for
attempt `idx`, `session.rollback()`, and `sleep(secs)`. -/
inductive RetryEv
  | attempt (idx : Nat)
  | rollback
  | sleepFor (secs : Nat)
deriving DecidableEq, Repr

/-- The helper's return: the callback's value, or Python `False` when the
attempts were exhausted or an integrity error aborted the call. -/
inductive RetryOut (α : Type)
  | value (v : α)
  | failed
deriving DecidableEq, Repr

/-- `random.randint a b` driven by raw draw `r`: a value in `[a, b]`. -/
def randint (a b r : Nat) : Nat := a + r % (b - a + 1)

/-- The `for idx in range(NUM_SQL_RETRIES)` loop of `session_retry`:
`k` attempts remain, the next has index `idx`.  A transient operational
error rolls back, sleeps `randint 1 30` seconds and continues; an
integrity error rolls back and returns `False` at once; success returns
the actuator's value; an exhausted loop returns `False`. -/
def session_retry_go {α : Type} (attempts : Nat → AttemptRes α)
    (rng : Nat → Nat) : Nat → Nat → RetryOut α × List RetryEv
  | 0, _ => (.failed, [])
  | k + 1, idx =>
    match attempts idx with
    | .ok v => (.value v, [.attempt idx])
    | .opErr =>
      let r := session_retry_go attempts rng k (idx + 1)
      (r.1, .attempt idx :: .rollback :: .sleepFor (randint 1 30 (rng idx)) :: r.2)
    | .pymysqlOpErr =>
      let r := session_retry_go attempts rng k (idx + 1)
      (r.1, .attempt idx :: .rollback :: .sleepFor (randint 1 30 (rng idx)) :: r.2)
    | .integrityErr => (.failed, [.attempt idx, .rollback])

/-- `session_retry` (tuna/utils/db_utility.py lines 110-132), returning its
result together with the trace of attempts, rollbacks and sleeps. -/
def session_retry {α : Type} (numRetries : Nat) (attempts : Nat → AttemptRes α)
    (rng : Nat → Nat) : RetryOut α × List RetryEv :=
  session_retry_go attempts rng numRetries 0

/-- Number of `sleepFor` events in a retry trace. -/
def countSleeps (evs : List RetryEv) : Nat :=
  evs.countP fun e => match e with | .sleepFor _ => true | _ => false

/-- Number of `rollback` events in a retry trace. -/
def countRollbacks (evs : List RetryEv) : Nat :=
  evs.countP fun e => match e with | .rollback => true | _ => false

/-- The events of `i` consecutive transient-error attempts starting at
index `idx`: for each, the actuator invocation, its rollback and its
randomized sleep. -/
def transientTrace (rng : Nat → Nat) : Nat → Nat → List RetryEv
  | _, 0 => []
  | idx, i + 1 =>
    RetryEv.attempt idx :: RetryEv.rollback ::
      RetryEv.sleepFor (randint 1 30 (rng idx)) :: transientTrace rng (idx + 1) i

/-! ## The RocMLIR worker poll step (tuna/rocmlir/rocmlir_worker.py)

The results class's `parse` method (the concrete `self.dbt.results` table
class is not under src/) is abstracted as a caller-supplied function from
the raw output to the parsed 5-tuple. -/

/-- The 5-tuple `obj.parse(result_str)` yields in `update_result_table`. -/
structure ParsedResult where
  arch : String
  num_cu : String
  config : String
  perf_config : String
  tflops : String
deriving DecidableEq, Repr

/-- The sanity check of `update_result_table`:
`not perf_config or perf_config == 'None' or tflops == '-inf'`
(an empty string is falsy in Python). -/
def badResultData (p : ParsedResult) : Bool :=
  decide (p.perf_config = "") || decide (p.perf_config = "None") ||
  decide (p.tflops = "-inf")

/-- A row of the RocMLIR results table as filled by `update_result_table`. -/
structure ResultRow where
  valid : Nat
  session : Nat
  arch : String
  config : Nat
  config_str : String
  perf_config : String
  kernel_tflops : String
deriving DecidableEq, Repr

/-- Store state a RocMLIR worker mutates: its job's state and result text,
and the results table. -/
structure WorkerStore where
  job_state : String
  job_result : String
  results : List ResultRow
deriving DecidableEq, Repr

/-- Observable events of the worker step. -/
inductive WEv
  | setState (s : String)
  | warnSkip
  | insertRow
  | commitRes
deriving DecidableEq, Repr

/-- `update_result_table`: parse the raw output; on unusable data (empty or
`'None'` perf_config, or `'-inf'` tflops) log a warning, skip the insert
and return `True` "to avoid an update retry"; otherwise insert the filled
row and commit, returning `True`. -/
def update_result_table (parse : String → ParsedResult) (sessId jobConfig : Nat)
    (result_str : String) (rows : List ResultRow) :
    Bool × List ResultRow × List WEv :=
  let p := parse result_str
  if badResultData p then
    (true, rows, [.warnSkip])
  else
    (true,
     rows ++ [{ valid := 1, session := sessId, arch := p.arch,
                config := jobConfig, config_str := p.config,
                perf_config := p.perf_config, kernel_tflops := p.tflops }],
     [.insertRow, .commitRes])

/-- `process_result`: wraps `update_result_table` in `session_retry`.  In
the embedding the update is total (the bad-data path never reaches the
store), so every attempt returns the callback's value. -/
def process_result (numRetries : Nat) (parse : String → ParsedResult)
    (sessId jobConfig : Nat) (result_str : String) (rows : List ResultRow) :
    RetryOut Bool × List ResultRow × List WEv × List RetryEv :=
  let u := update_result_table parse sessId jobConfig result_str rows
  let r := session_retry numRetries (fun _ => AttemptRes.ok u.1) (fun _ => 0)
  (r.1, u.2.1, u.2.2, r.2)

/-- Modelled from the spec: `set_job_state` of the worker interface
(`tuna/worker_interface.py`, not under src/) records the given state and
result text on the worker's claimed job. -/
def worker_set_job_state (st : WorkerStore) (state result : String) :
    WorkerStore :=
  { st with job_state := state, job_result := result }

/-- `RocMLIRWorker.step`, from the point where a job has been claimed
(`get_job` succeeded) and `run_cmd` produced `cmdOutcome` — either a
raised `ValueError` or an `(exit code, combined output)` pair.  Returns
the final store, the ordered event trace, the result of `process_result`
on the success path (if reached), and the step's return value. -/
def rocmlir_step (numRetries : Nat) (parse : String → ParsedResult)
    (sessId jobConfig : Nat) (cmdOutcome : Except String (Int × String))
    (st : WorkerStore) :
    WorkerStore × List WEv × Option (RetryOut Bool × List RetryEv) × Bool :=
  let st1 := worker_set_job_state st "running" st.job_result
  match cmdOutcome with
  | .error verr =>
    (worker_set_job_state st1 "error" verr,
     [.setState "running", .setState "error"], none, true)
  | .ok (retcode, cmd_output) =>
    if retcode ≠ 0 then
      let msg := "Error code " ++ toString retcode ++ ", output " ++
        (cmd_output.replace "'" "\\'")
      (worker_set_job_state st1 "error" msg,
       [.setState "running", .setState "error"], none, true)
    else
      let out := cmd_output.replace ":" "\\:"
      let st2 := worker_set_job_state st1 "completed" out
      let pr := process_result numRetries parse sessId jobConfig out st2.results
      ({ st2 with results := pr.2.1 },
       [.setState "running", .setState "completed"] ++ pr.2.2.1,
       some (pr.1, pr.2.2.2), true)

/-! ## Worker-pool composition (tuna/miopen/miopen_lib.py) -/

/-- The argparse flags `compose_worker_list` and `launch_worker` read.
In the CLI most of them sit in one mutually exclusive group, but the
embedding does not rely on that. -/
structure TuneArgs where
  restart_machine : Bool
  fin_steps : List String
  gpu_lim : Option Nat
  update_applicability : Bool
  update_solvers : Bool
  check_status : Bool
  init_session : Bool
  execute_cmd : Option String
deriving Repr

/-- One reachable machine: its id, available GPU indices, available
process slots, the count of config rows `query_cfgs(label).all()` returns
for the applicability operation, and what the status probe reports. -/
structure Machine where
  id : Nat
  avail_gpus : List Nat
  num_procs : List Nat
  pending_cfgs : Nat
  status_probe : Bool
deriving Repr

/-- Base worker-id selection: GPUs (optionally truncated to
`range(gpu_lim)` when the flag is truthy and below the count) for an eval
fin step, else the machine's process slots. -/
def base_worker_ids (args : TuneArgs) (m : Machine) : List Nat :=
  match args.fin_steps with
  | s :: _ =>
    if sqlLikeContains "eval" s then
      match args.gpu_lim with
      | some lim =>
        if 0 < lim ∧ lim < m.avail_gpus.length then List.range lim
        else m.avail_gpus
      | none => m.avail_gpus
    else m.num_procs
  | [] => m.num_procs

/-- The applicability cap loop with explicit fuel (each iteration pops one
element, so `ids.length` iterations always suffice). -/
def cap_worker_ids_go (len_rows : Nat) : Nat → List Nat → List Nat
  | 0, ids => ids
  | fuel + 1, ids =>
    if 100 * ids.length > len_rows + 99 then
      cap_worker_ids_go len_rows fuel ids.dropLast
    else ids

/-- The applicability cap loop:
`while len(worker_ids) > (len_rows + 99) / 100: worker_ids.pop()`.
Python's true division produces `(len_rows + 99) / 100` exactly; an
integer `len` exceeds it iff `100 * len > len_rows + 99`. -/
def cap_worker_ids (ids : List Nat) (len_rows : Nat) : List Nat :=
  cap_worker_ids_go len_rows ids.length ids

/-- The worker ids a machine contributes after the applicability cap. -/
def effective_worker_ids (args : TuneArgs) (m : Machine) : List Nat :=
  let ids := base_worker_ids args m
  if args.update_applicability then cap_worker_ids ids m.pending_cfgs else ids

/-- `launch_worker`'s return value and its appended workers, per GPU index:
the applicability branch starts a worker and returns `True`; the status
branch returns `True` exactly when the probe fails; the
init-session / execute-cmd / default paths return `False`. -/
def launch_worker_ret (args : TuneArgs) (m : Machine) : Bool :=
  if args.update_applicability then true
  else if args.check_status then !m.status_probe
  else false

/-- The workers `launch_worker` appends over the per-GPU loop
(`for gpu_idx in worker_ids: if not launch_worker(...): break`): only the
applicability branch appends (one worker per id, and it always returns
`True`, so the loop never breaks); every other branch appends nothing. -/
def launched_workers (args : TuneArgs) (m : Machine) (ids : List Nat) :
    List (Nat × Nat) :=
  if args.update_applicability then ids.map fun g => (m.id, g) else []

/-- The machine loop of `compose_worker_list`, carrying `fin_work_done`
and the accumulated `worker_lst`.  A machine under `--restart_machine` is
restarted and skipped; a machine whose (possibly capped) worker-id list is
empty aborts the composition with `None`; `--update_solvers` does its
singleton fin work at the first contributing machine and breaks out of the
loop, returning the list accumulated so far. -/
def compose_worker_list_go (args : TuneArgs) :
    List Machine → Bool → List (Nat × Nat) → Option (List (Nat × Nat))
  | [], _, acc => some acc
  | m :: rest, fin_done, acc =>
    if args.restart_machine then
      compose_worker_list_go args rest fin_done acc
    else
      let ids := effective_worker_ids args m
      if ids.length = 0 then none
      else if args.update_solvers ∧ ¬fin_done then some acc
      else compose_worker_list_go args rest fin_done
        (acc ++ launched_workers args m ids)

/-- `compose_worker_list` (tuna/miopen/miopen_lib.py lines 336-384). -/
def compose_worker_list (args : TuneArgs) (machines : List Machine) :
    Option (List (Nat × Nat)) :=
  compose_worker_list_go args machines false []

/-! ## Fin-step argument checking (tuna/miopen/miopen_lib.py lines 266-278)

Strings are handled as character lists here, so that Python's
`fin_steps.split(',')` can be embedded directly.  The `FinStep`
enumeration itself lives in `tuna/miopen/db/mixin_tables.py`, which is not
under src/; the check is embedded parameterized by the valid-step list. -/

/-- Python `s.split(',')` on a character list: always at least one piece;
a comma-free string splits into the singleton `[s]`. -/
def splitComma : List Char → List (List Char)
  | [] => [[]]
  | c :: rest =>
    if c = ',' then [] :: splitComma rest
    else
      match splitComma rest with
      | [] => [[c]]
      | s :: ss => (c :: s) :: ss

/-- `check_fin_args`: reject a comma (multiple fin steps unsupported) with
a parser error (`none`), split, and reject any step outside the valid
fin-step enumeration; otherwise return the step list (the final
`assert len(fin_steps) == 1` never fires). -/
def check_fin_args (fin_steps : List Char) (validFinSteps : List (List Char)) :
    Option (List (List Char)) :=
  if ',' ∈ fin_steps then none
  else
    let f_steps := splitComma fin_steps
    if f_steps.all (fun s => decide (s ∈ validFinSteps)) then some f_steps
    else none

end MITunaX

namespace MITunaX

/-! ## Claim theorems -/

/-- C1 (counterexample): with a job in its pre-transition state
`eval_start` (retries 1), a transient `OperationalError` raised mid-update
during eval-result ingestion leads to a rollback, after which the job has
been moved to state `errored` — it is NOT left in its pre-ingestion
state, contradicting the claim. -/
theorem eval_transient_error_rollback_cex :
    (process_eval_results ⟨"eval_start", 1, "old"⟩ (some .findEval)
        (.error .opErr)).rolledBack = true ∧
    (process_eval_results ⟨"eval_start", 1, "old"⟩ (some .findEval)
        (.error .opErr)).job.state = "errored" ∧
    ¬(process_eval_results ⟨"eval_start", 1, "old"⟩ (some .findEval)
        (.error .opErr)).job.state = "eval_start" := by
  decide

/-- C1 (amended): on a transient (or integrity) store error raised
mid-update during eval-result ingestion, the transaction IS rolled back
and the job's `retries` field is unchanged, but the job does not remain in
its pre-transition state: the handler explicitly moves it to `errored`. -/
theorem eval_transient_error_rolls_back_and_sets_errored
    (job : Job) (kind : EvalResultKind) (err : StoreErr) :
    (process_eval_results job (some kind) (.error err)).rolledBack = true ∧
    (process_eval_results job (some kind) (.error err)).job.state
      = "errored" ∧
    (process_eval_results job (some kind) (.error err)).job.retries
      = job.retries := by
  cases kind <;> simp [process_eval_results, set_job_state]

/-- C2 (counterexample): a job whose evaluation fails 3 times in a row
(starting from `retries = 0`) ends in state `errored` with `retries = 2`,
not `retries = 3` as the claim states: the ceiling test
`retries >= MAX_ERRORED_JOB_RETRIES - 1` fires on the third failure
without incrementing the counter. -/
theorem retry_ceiling_cex :
    evalIngestFail (evalIngestFail (evalIngestFail ⟨"eval_start", 0, ""⟩)) =
      ⟨"errored", 2, "fail"⟩ ∧
    (evalIngestFail (evalIngestFail (evalIngestFail
        ⟨"eval_start", 0, ""⟩))).retries ≠ 3 := by
  decide

/-- C2 (amended): a job that fails evaluation 3 times in a row ends in
state `errored` with `retries = 2` (the third failure hits the ceiling
test `retries >= MAX_ERRORED_JOB_RETRIES - 1` and does not increment);
a job that fails twice then succeeds ends in `evaluated` with
`retries = 2`; in general a failure with `retries + 1 <
MAX_ERRORED_JOB_RETRIES` reverts the job to `compiled` and increments
`retries`, and a failure with `retries + 1 >= MAX_ERRORED_JOB_RETRIES`
moves it to `errored` leaving `retries` unchanged. -/
theorem retry_ceiling_amended :
    (evalIngestFail (evalIngestFail (evalIngestFail
        ⟨"eval_start", 0, ""⟩))).state = "errored" ∧
    (evalIngestFail (evalIngestFail (evalIngestFail
        ⟨"eval_start", 0, ""⟩))).retries = 2 ∧
    (evalIngestOk (evalIngestFail (evalIngestFail
        ⟨"eval_start", 0, ""⟩))).state = "evaluated" ∧
    (evalIngestOk (evalIngestFail (evalIngestFail
        ⟨"eval_start", 0, ""⟩))).retries = 2 ∧
    (∀ job : Job, job.retries + 1 < MAX_ERRORED_JOB_RETRIES →
      evalIngestFail job = ⟨"compiled", job.retries + 1, "fail"⟩) ∧
    (∀ job : Job, job.retries + 1 ≥ MAX_ERRORED_JOB_RETRIES →
      evalIngestFail job = ⟨"errored", job.retries, "fail"⟩) := by
  refine ⟨by decide, by decide, by decide, by decide, ?_, ?_⟩
  · intro job h
    have h2 : ¬job.retries ≥ MAX_ERRORED_JOB_RETRIES - 1 := by
      simp only [MAX_ERRORED_JOB_RETRIES] at h ⊢; omega
    simp [evalIngestFail, process_eval_results, evalFailBranch,
      set_job_state, h2]
  · intro job h
    have h2 : job.retries ≥ MAX_ERRORED_JOB_RETRIES - 1 := by
      simp only [MAX_ERRORED_JOB_RETRIES] at h ⊢; omega
    simp [evalIngestFail, process_eval_results, evalFailBranch,
      set_job_state, h2]

/-- C2 (witness): the two general transition facts of the amended claim at
concrete jobs — a first failure at `retries = 0` reverts to `compiled`
with `retries = 1`, a failure at `retries = 2` moves to `errored` keeping
`retries = 2`. -/
theorem retry_ceiling_amended_witness :
    evalIngestFail ⟨"eval_start", 0, ""⟩ = ⟨"compiled", 1, "fail"⟩ ∧
    evalIngestFail ⟨"eval_start", 2, ""⟩ = ⟨"errored", 2, "fail"⟩ :=
  ⟨retry_ceiling_amended.2.2.2.2.1 ⟨"eval_start", 0, ""⟩ (by decide),
   retry_ceiling_amended.2.2.2.2.2 ⟨"eval_start", 2, ""⟩ (by decide)⟩

/-- A comma-free string splits into the singleton list holding it. -/
theorem splitComma_of_not_mem (l : List Char) (h : ',' ∉ l) :
    splitComma l = [l] := by
  induction l with
  | nil => rfl
  | cons c rest ih =>
    have hc : ¬c = ',' := fun hcc => h (hcc ▸ List.mem_cons_self c rest)
    have hrest : ',' ∉ rest := fun hm => h (List.mem_cons_of_mem c hm)
    simp only [splitComma, if_neg hc, ih hrest]

/-- C10: whenever `check_fin_args` accepts a fin-steps argument, the
resulting list is exactly the singleton holding the argument (so all
downstream logic sees one fin step) and that step is in the valid
enumeration; a comma-separated multi-step value is rejected with a parser
error, and a value outside the valid fin-step enumeration is rejected. -/
theorem check_fin_args_single_step (s : List Char)
    (valid : List (List Char)) :
    (∀ fs, check_fin_args s valid = some fs →
      fs = [s] ∧ fs.length = 1 ∧ ∀ x ∈ fs, x ∈ valid) ∧
    (',' ∈ s → check_fin_args s valid = none) ∧
    (s ∉ valid → check_fin_args s valid = none) := by
  refine ⟨?_, ?_, ?_⟩
  · intro fs h
    by_cases hc : ',' ∈ s
    · simp [check_fin_args, hc] at h
    · by_cases hv : s ∈ valid
      · simp only [check_fin_args, if_neg hc, splitComma_of_not_mem s hc,
          List.all_cons, List.all_nil, decide_eq_true_eq] at h
        rw [if_pos (by simp [hv])] at h
        obtain rfl := (Option.some_inj.mp h).symm
        exact ⟨rfl, rfl, by simpa using hv⟩
      · simp [check_fin_args, if_neg hc, splitComma_of_not_mem s hc, hv] at h
  · intro hc
    simp [check_fin_args, hc]
  · intro hv
    by_cases hc : ',' ∈ s
    · simp [check_fin_args, hc]
    · simp [check_fin_args, if_neg hc, splitComma_of_not_mem s hc, hv]

/-- C10 (witness): a valid single step is accepted as a singleton; a
comma-separated value and an unknown step are rejected. -/
theorem check_fin_args_single_step_witness :
    ("miopen_find_compile".toList = ['m','i','o','p','e','n','_','f','i','n',
      'd','_','c','o','m','p','i','l','e'] ∧
     [ "miopen_find_compile".toList ].length = 1 ∧
     ∀ x ∈ [ "miopen_find_compile".toList ],
       x ∈ ["miopen_find_compile".toList, "miopen_find_eval".toList]) ∧
    check_fin_args "miopen_find_compile,miopen_find_eval".toList
      ["miopen_find_compile".toList, "miopen_find_eval".toList] = none ∧
    check_fin_args "bogus_step".toList
      ["miopen_find_compile".toList, "miopen_find_eval".toList] = none := by
  refine ⟨?_, ?_, ?_⟩
  · have h := (check_fin_args_single_step "miopen_find_compile".toList
      ["miopen_find_compile".toList, "miopen_find_eval".toList]).1
      ["miopen_find_compile".toList] (by decide)
    exact ⟨by decide, h.2.1, h.2.2⟩
  · exact (check_fin_args_single_step _ _).2.1 (by decide)
  · exact (check_fin_args_single_step _ _).2.2 (by decide)

end MITunaX

namespace MITunaX

/-- C3: a claim with batch size `n` returns at most `n` rows, in ascending
(retries, config id) order; in particular, for jobs with retries
`[2, 0, 1]` on configs `[10, 20, 30]` a claim of size 3 returns them as
config 20 (retries 0), config 30 (retries 1), config 10 (retries 2). -/
theorem claim_batch_bounded_and_ordered :
    (∀ (table : List JobRow) (sessId : Nat) (find_state : List String)
      (label : Option String) (maxJobRetries n : Nat)
      (fin_steps : List String) (res : List JobRow),
      get_job_objs true table sessId find_state label maxJobRetries (some n)
        fin_steps = some res →
      res.length ≤ n ∧ res.Sorted JobOrder) ∧
    get_job_objs true
      [{ id := 1, session := 7, valid := 1, retries := 2, config := 10,
         state := "new", reason := "lbl", fin_step := "not_fin",
         locked := false },
       { id := 2, session := 7, valid := 1, retries := 0, config := 20,
         state := "new", reason := "lbl", fin_step := "not_fin",
         locked := false },
       { id := 3, session := 7, valid := 1, retries := 1, config := 30,
         state := "new", reason := "lbl", fin_step := "not_fin",
         locked := false }] 7 ["new"] (some "lbl") 3 (some 3) [] =
      some
      [{ id := 2, session := 7, valid := 1, retries := 0, config := 20,
         state := "new", reason := "lbl", fin_step := "not_fin",
         locked := false },
       { id := 3, session := 7, valid := 1, retries := 1, config := 30,
         state := "new", reason := "lbl", fin_step := "not_fin",
         locked := false },
       { id := 1, session := 7, valid := 1, retries := 2, config := 10,
         state := "new", reason := "lbl", fin_step := "not_fin",
         locked := false }] := by
  constructor
  · intro table sessId find_state label maxJobRetries n fin_steps res h
    simp only [get_job_objs, compose_work_objs, gen_select_objs, if_true,
      Option.some_inj] at h
    subst h
    simp only [runClaimQuery]
    constructor
    · exact List.length_take_le n _
    · exact List.Pairwise.sublist (List.take_sublist n _)
        (List.sorted_insertionSort JobOrder _)
  · decide

/-- C3 (witness): the bound-and-order statement applied to a concrete
single-row table claimed with batch size 2. -/
theorem claim_batch_bounded_and_ordered_witness :
    ([{ id := 5, session := 1, valid := 1, retries := 0, config := 4,
        state := "new", reason := "x", fin_step := "not_fin",
        locked := false }] : List JobRow).length ≤ 2 ∧
    ([{ id := 5, session := 1, valid := 1, retries := 0, config := 4,
        state := "new", reason := "x", fin_step := "not_fin",
        locked := false }] : List JobRow).Sorted JobOrder :=
  claim_batch_bounded_and_ordered.1
    [{ id := 5, session := 1, valid := 1, retries := 0, config := 4,
       state := "new", reason := "x", fin_step := "not_fin",
       locked := false }] 1 ["new"] (some "x") 3 2 [] _ (by decide)

/-- C4: every row returned by a claim satisfies all the built conditions:
`valid = 1`, the given session id, a state in the acceptable set, retries
strictly below the retry ceiling, the reason equal to the label whenever a
label is given, and the fin-step filter (`fin_step LIKE '%step%'`, or
`fin_step = 'not_fin'` when no step is given). -/
theorem claimed_rows_satisfy_filters :
    ∀ (table : List JobRow) (sessId : Nat) (find_state : List String)
      (label : Option String) (maxJobRetries : Nat) (claim_num : Option Nat)
      (fin_steps : List String) (res : List JobRow) (r : JobRow),
      get_job_objs true table sessId find_state label maxJobRetries claim_num
        fin_steps = some res →
      r ∈ res →
      r.valid = 1 ∧ r.session = sessId ∧ r.state ∈ find_state ∧
      r.retries < maxJobRetries ∧
      (∀ l, label = some l → r.reason = l) ∧
      finStepCond fin_steps r = true := by
  intro table sessId find_state label maxJobRetries claim_num fin_steps res r
    h hr
  simp only [get_job_objs, compose_work_objs, gen_select_objs, if_true,
    Option.some_inj] at h
  subst h
  have hmem : r ∈ (table.filter fun x =>
      (baseJobConds sessId label maxJobRetries find_state x &&
        finStepCond fin_steps x) && !x.locked).insertionSort JobOrder := by
    simp only [runClaimQuery] at hr
    cases claim_num with
    | none => exact hr
    | some n => exact (List.take_sublist n _).mem hr
  have hfilter := (List.perm_insertionSort JobOrder _).mem_iff.mp hmem
  rw [List.mem_filter] at hfilter
  obtain ⟨-, hcond⟩ := hfilter
  simp only [Bool.and_eq_true, baseJobConds, decide_eq_true_eq] at hcond
  obtain ⟨⟨⟨⟨⟨⟨hsess, hvalid⟩, hlabel⟩, hretr⟩, hstate⟩, hfin⟩, -⟩ := hcond
  refine ⟨hvalid, hsess, hstate, hretr, ?_, hfin⟩
  intro l hl
  subst hl
  simpa using hlabel

/-- C4 (witness): the condition guarantees at a concrete claim that
returns one row. -/
theorem claimed_rows_satisfy_filters_witness :
    (1 : Nat) = 1 ∧ (7 : Nat) = 7 ∧ "compiled" ∈ ["new", "compiled"] ∧
    (1 : Nat) < 3 ∧
    (∀ l, (some "lbl" : Option String) = some l → "lbl" = l) ∧
    finStepCond ["miopen_find_eval"]
      { id := 9, session := 7, valid := 1, retries := 1, config := 2,
        state := "compiled", reason := "lbl",
        fin_step := "miopen_find_eval", locked := false } = true :=
  claimed_rows_satisfy_filters
    [{ id := 9, session := 7, valid := 1, retries := 1, config := 2,
       state := "compiled", reason := "lbl",
       fin_step := "miopen_find_eval", locked := false }]
    7 ["new", "compiled"] (some "lbl") 3 (some 5) ["miopen_find_eval"]
    [{ id := 9, session := 7, valid := 1, retries := 1, config := 2,
       state := "compiled", reason := "lbl",
       fin_step := "miopen_find_eval", locked := false }]
    { id := 9, session := 7, valid := 1, retries := 1, config := 2,
      state := "compiled", reason := "lbl",
      fin_step := "miopen_find_eval", locked := false }
    (by decide) (by decide)

/-- C9: a claim against a table in which no row satisfies the eligibility
conditions (the built filters together with being unlocked) returns the
empty collection `some []`, not the error result `none`. -/
theorem empty_eligible_set_returns_empty :
    ∀ (table : List JobRow) (sessId : Nat) (find_state : List String)
      (label : Option String) (maxJobRetries : Nat) (claim_num : Option Nat)
      (fin_steps : List String),
      (∀ r ∈ table,
        ¬(baseJobConds sessId label maxJobRetries find_state r = true ∧
          finStepCond fin_steps r = true ∧ r.locked = false)) →
      get_job_objs true table sessId find_state label maxJobRetries claim_num
        fin_steps = some [] := by
  intro table sessId find_state label maxJobRetries claim_num fin_steps h
  simp only [get_job_objs, compose_work_objs, gen_select_objs, if_true,
    Option.some_inj]
  have hnil : (table.filter fun x =>
      (baseJobConds sessId label maxJobRetries find_state x &&
        finStepCond fin_steps x) && !x.locked) = [] := by
    rw [List.filter_eq_nil_iff]
    intro a ha
    have := h a ha
    simp only [Bool.and_eq_true, Bool.not_eq_true'] at *
    tauto
  simp only [runClaimQuery, hnil]
  cases claim_num <;> simp [List.insertionSort]

/-- C9 (witness): a table whose only rows are an invalid row and a locked
row yields the empty claim result. -/
theorem empty_eligible_set_returns_empty_witness :
    get_job_objs true
      [{ id := 1, session := 3, valid := 0, retries := 0, config := 1,
         state := "new", reason := "t", fin_step := "not_fin",
         locked := false },
       { id := 2, session := 3, valid := 1, retries := 0, config := 2,
         state := "new", reason := "t", fin_step := "not_fin",
         locked := true }] 3 ["new"] (some "t") 3 (some 4) [] = some [] :=
  empty_eligible_set_returns_empty _ 3 ["new"] (some "t") 3 (some 4) []
    (by decide)

end MITunaX

namespace MITunaX

/-! ### Auxiliary lemmas about the retry loop -/

/-- If every attempt from some point on raises a transient operational
error, the loop exhausts its remaining attempts, returning `False` with
one rollback and one sleep per attempt. -/
theorem session_retry_go_all_transient {α : Type}
    (attempts : Nat → AttemptRes α) (rng : Nat → Nat) :
    ∀ (k idx : Nat), (∀ j, (attempts j).transient = true) →
      (session_retry_go attempts rng k idx).1 = RetryOut.failed ∧
      countSleeps (session_retry_go attempts rng k idx).2 = k ∧
      countRollbacks (session_retry_go attempts rng k idx).2 = k := by
  intro k
  induction k with
  | zero =>
    intro idx _
    simp [session_retry_go, countSleeps, countRollbacks]
  | succ k ih =>
    intro idx h
    have htr := h idx
    obtain ⟨ih1, ih2, ih3⟩ := ih (idx + 1) h
    cases hat : attempts idx <;>
      simp [hat, AttemptRes.transient] at htr ⊢ <;>
      simp [session_retry_go, hat, countSleeps, countRollbacks,
        List.countP_cons] at ih1 ih2 ih3 ⊢ <;>
      exact ⟨ih1, ih2, ih3⟩

/-- If the attempts at indices `idx, …, idx+i-1` are transient operational
errors and attempt `idx+i` succeeds with `v` within the budget, the loop
returns `v`. -/
theorem session_retry_go_first_ok {α : Type}
    (attempts : Nat → AttemptRes α) (rng : Nat → Nat) :
    ∀ (i k idx : Nat) (v : α),
      (∀ j, j < i → (attempts (idx + j)).transient = true) →
      attempts (idx + i) = .ok v → i < k →
      (session_retry_go attempts rng k idx).1 = RetryOut.value v := by
  intro i
  induction i with
  | zero =>
    intro k idx v _ hok hk
    obtain ⟨k', rfl⟩ := Nat.exists_eq_succ_of_ne_zero (Nat.pos_iff_ne_zero.mp hk)
    simp only [Nat.add_zero] at hok
    simp [session_retry_go, hok]
  | succ i ih =>
    intro k idx v hpre hok hk
    obtain ⟨k', rfl⟩ := Nat.exists_eq_succ_of_ne_zero
      (Nat.pos_iff_ne_zero.mp (Nat.lt_of_le_of_lt (Nat.zero_le _) hk))
    have hnext := ih k' (idx + 1) v
      (fun j hj => by
        have := hpre (j + 1) (by omega)
        simpa [Nat.add_comm, Nat.add_assoc, Nat.add_left_comm] using this)
      (by simpa [Nat.add_comm, Nat.add_assoc, Nat.add_left_comm] using hok)
      (by omega)
    have h0 := hpre 0 (by omega)
    simp only [Nat.add_zero] at h0
    cases hat : attempts idx <;>
      simp [hat, AttemptRes.transient] at h0 <;>
      simp [session_retry_go, hat, hnext]

/-- If the attempts at indices `idx, …, idx+i-1` are transient operational
errors and attempt `idx+i` raises an integrity error within the budget,
the loop rolls back and returns `False` at once: the trace is the `i`
transient attempt/rollback/sleep triples followed by the integrity
attempt and its rollback — no sleep after it and no further attempt. -/
theorem session_retry_go_integrity {α : Type}
    (attempts : Nat → AttemptRes α) (rng : Nat → Nat) :
    ∀ (i k idx : Nat),
      (∀ j, j < i → (attempts (idx + j)).transient = true) →
      attempts (idx + i) = .integrityErr → i < k →
      session_retry_go attempts rng k idx =
        (RetryOut.failed,
         transientTrace rng idx i ++
           [RetryEv.attempt (idx + i), RetryEv.rollback]) := by
  intro i
  induction i with
  | zero =>
    intro k idx _ hint hk
    obtain ⟨k', rfl⟩ := Nat.exists_eq_succ_of_ne_zero (Nat.pos_iff_ne_zero.mp hk)
    simp only [Nat.add_zero] at hint
    simp [session_retry_go, hint, transientTrace]
  | succ i ih =>
    intro k idx hpre hint hk
    obtain ⟨k', rfl⟩ := Nat.exists_eq_succ_of_ne_zero
      (Nat.pos_iff_ne_zero.mp (Nat.lt_of_le_of_lt (Nat.zero_le _) hk))
    have hnext := ih k' (idx + 1)
      (fun j hj => by
        have := hpre (j + 1) (by omega)
        simpa [Nat.add_comm, Nat.add_assoc, Nat.add_left_comm] using this)
      (by simpa [Nat.add_comm, Nat.add_assoc, Nat.add_left_comm] using hint)
      (by omega)
    have h0 := hpre 0 (by omega)
    simp only [Nat.add_zero] at h0
    have harith : idx + 1 + i = idx + (i + 1) := by omega
    cases hat : attempts idx <;> simp [hat, AttemptRes.transient] at h0
    · simp [session_retry_go, hat, hnext, transientTrace, harith,
        List.cons_append]
    · simp [session_retry_go, hat, hnext, transientTrace, harith,
        List.cons_append]

/-- Every sleep the loop performs lasts between 1 and 30 seconds. -/
theorem session_retry_go_sleep_bounds {α : Type}
    (attempts : Nat → AttemptRes α) (rng : Nat → Nat) :
    ∀ (k idx d : Nat),
      RetryEv.sleepFor d ∈ (session_retry_go attempts rng k idx).2 →
      1 ≤ d ∧ d ≤ 30 := by
  intro k
  induction k with
  | zero =>
    intro idx d hd
    simp [session_retry_go] at hd
  | succ k ih =>
    intro idx d hd
    have hbound : ∀ r : Nat, 1 ≤ randint 1 30 r ∧ randint 1 30 r ≤ 30 := by
      intro r
      have : r % 30 < 30 := Nat.mod_lt r (by omega)
      unfold randint
      omega
    cases hat : attempts idx <;>
      simp [session_retry_go, hat] at hd
    · obtain ⟨k', rfl⟩ | hm := hd
      · exact hbound _
      · exact ih _ _ hm
    · obtain ⟨k', rfl⟩ | hm := hd
      · exact hbound _
      · exact ih _ _ hm

/-- C5: the retry/backoff helper `session_retry` (a) aborts on an
integrity error raised at any attempt `i` within the budget (any earlier
attempts being transient operational errors): it rolls back and returns
`False` immediately — the trace ends with attempt `i` and its rollback,
with no sleep after it and no further attempt; (b) returns the callback's
value on the first successful attempt; (c) returns `False` after
exhausting all `numRetries` attempts when every attempt hits a transient
operational error, rolling back and sleeping once per attempt; and
(d) every sleep lasts a randomized 1–30 seconds. -/
theorem session_retry_spec {α : Type} (numRetries : Nat)
    (attempts : Nat → AttemptRes α) (rng : Nat → Nat) :
    (∀ i : Nat, i < numRetries →
      (∀ j, j < i → (attempts j).transient = true) →
      attempts i = .integrityErr →
      session_retry numRetries attempts rng =
        (RetryOut.failed,
         transientTrace rng 0 i ++
           [RetryEv.attempt i, RetryEv.rollback])) ∧
    (∀ (i : Nat) (v : α), i < numRetries →
      (∀ j, j < i → (attempts j).transient = true) →
      attempts i = .ok v →
      (session_retry numRetries attempts rng).1 = RetryOut.value v) ∧
    ((∀ j, (attempts j).transient = true) →
      (session_retry numRetries attempts rng).1 = RetryOut.failed ∧
      countSleeps (session_retry numRetries attempts rng).2 = numRetries ∧
      countRollbacks (session_retry numRetries attempts rng).2
        = numRetries) ∧
    (∀ d : Nat,
      RetryEv.sleepFor d ∈ (session_retry numRetries attempts rng).2 →
      1 ≤ d ∧ d ≤ 30) := by
  refine ⟨?_, ?_, ?_, ?_⟩
  · intro i hi hpre hint
    have h := session_retry_go_integrity attempts rng i numRetries 0
      (fun j hj => by simpa using hpre j hj) (by simpa using hint) hi
    simpa [session_retry] using h
  · intro i v hi hpre hok
    exact session_retry_go_first_ok attempts rng i numRetries 0 v
      (fun j hj => by simpa using hpre j hj) (by simpa using hok) hi
  · intro h
    exact session_retry_go_all_transient attempts rng numRetries 0 h
  · intro d hd
    exact session_retry_go_sleep_bounds attempts rng numRetries 0 d hd

/-- C5 (witness): the four guarantees at concrete attempt streams with
budget 10: an immediate integrity abort on the first attempt; an
integrity abort on the second attempt after one transient error; success
at attempt 2 after two transient errors; exhaustion under persistent
transient errors; and the bound on a concrete sleep. -/
theorem session_retry_spec_witness :
    session_retry 10 (fun _ => (AttemptRes.integrityErr : AttemptRes Nat))
      (fun _ => 0) = (RetryOut.failed, [RetryEv.attempt 0, RetryEv.rollback]) ∧
    session_retry 10
      (fun i => if i = 0 then AttemptRes.opErr
                else (AttemptRes.integrityErr : AttemptRes Nat))
      (fun _ => 4) =
      (RetryOut.failed,
       transientTrace (fun _ => 4) 0 1 ++
         [RetryEv.attempt 1, RetryEv.rollback]) ∧
    (session_retry 10
      (fun i => if i < 2 then AttemptRes.opErr else AttemptRes.ok 42)
      (fun _ => 7)).1 = RetryOut.value 42 ∧
    (session_retry 10 (fun _ => (AttemptRes.pymysqlOpErr : AttemptRes Nat))
      (fun _ => 3)).1 = RetryOut.failed ∧
    (1 ≤ randint 1 30 7 ∧ randint 1 30 7 ≤ 30) := by
  refine ⟨?_, ?_, ?_, ?_, ?_⟩
  · exact (session_retry_spec 10 _ _).1 0 (by decide)
      (fun j hj => absurd hj (by omega)) rfl
  · exact (session_retry_spec 10
      (fun i => if i = 0 then AttemptRes.opErr
                else (AttemptRes.integrityErr : AttemptRes Nat))
      (fun _ => 4)).1 1 (by decide) (fun j hj => by
        have hj0 : j = 0 := by omega
        subst hj0; decide) (by decide)
  · exact (session_retry_spec 10
      (fun i => if i < 2 then AttemptRes.opErr else AttemptRes.ok 42)
      (fun _ => 7)).2.1 2 42 (by decide) (fun j hj => by
        interval_cases j <;> decide) (by decide)
  · exact ((session_retry_spec 10 _ _).2.2.1 (fun j => by decide)).1
  · exact (session_retry_spec 10
      (fun i => if i < 2 then AttemptRes.opErr else AttemptRes.ok 42)
      (fun _ => 7)).2.2.2 (randint 1 30 7) (by decide)

end MITunaX

namespace MITunaX

/-- C6: in the worker poll step, when the external job exits with code 0
the job is set to `completed` before result parsing (the trace places
`setState "completed"` ahead of the parse-skip event), and a payload whose
parse yields no usable data (empty or `'None'` perf_config, or `'-inf'`
tflops) is tolerated: no result row is inserted, the result-table update
reports success through `session_retry` on its first attempt (no retry),
and the job remains in state `completed`. -/
theorem bad_parse_tolerated :
    ∀ (numRetries : Nat) (parse : String → ParsedResult)
      (sessId jobConfig : Nat) (st : WorkerStore) (cmd_output : String),
      0 < numRetries →
      badResultData (parse (cmd_output.replace ":" "\\:")) = true →
      (rocmlir_step numRetries parse sessId jobConfig
        (.ok (0, cmd_output)) st).1.job_state = "completed" ∧
      (rocmlir_step numRetries parse sessId jobConfig
        (.ok (0, cmd_output)) st).1.results = st.results ∧
      (rocmlir_step numRetries parse sessId jobConfig
        (.ok (0, cmd_output)) st).2.1 =
        [WEv.setState "running", WEv.setState "completed", WEv.warnSkip] ∧
      (rocmlir_step numRetries parse sessId jobConfig
        (.ok (0, cmd_output)) st).2.2.1 =
        some (RetryOut.value true, [RetryEv.attempt 0]) ∧
      (rocmlir_step numRetries parse sessId jobConfig
        (.ok (0, cmd_output)) st).2.2.2 = true := by
  intro numRetries parse sessId jobConfig st cmd_output hn hbad
  obtain ⟨k, rfl⟩ := Nat.exists_eq_succ_of_ne_zero (Nat.pos_iff_ne_zero.mp hn)
  simp [rocmlir_step, process_result, update_result_table, hbad,
    worker_set_job_state, session_retry, session_retry_go]

/-- C6 (witness): the tolerance guarantees at a concrete step whose parse
yields perf_config `'None'`. -/
theorem bad_parse_tolerated_witness :
    (rocmlir_step 10 (fun _ => ⟨"gfx90a", "104", "cfg", "None", "1.0"⟩) 1 2
      (.ok (0, "out")) ⟨"new", "", []⟩).1.job_state = "completed" ∧
    (rocmlir_step 10 (fun _ => ⟨"gfx90a", "104", "cfg", "None", "1.0"⟩) 1 2
      (.ok (0, "out")) ⟨"new", "", []⟩).1.results =
        (⟨"new", "", []⟩ : WorkerStore).results ∧
    (rocmlir_step 10 (fun _ => ⟨"gfx90a", "104", "cfg", "None", "1.0"⟩) 1 2
      (.ok (0, "out")) ⟨"new", "", []⟩).2.1 =
      [WEv.setState "running", WEv.setState "completed", WEv.warnSkip] ∧
    (rocmlir_step 10 (fun _ => ⟨"gfx90a", "104", "cfg", "None", "1.0"⟩) 1 2
      (.ok (0, "out")) ⟨"new", "", []⟩).2.2.1 =
      some (RetryOut.value true, [RetryEv.attempt 0]) ∧
    (rocmlir_step 10 (fun _ => ⟨"gfx90a", "104", "cfg", "None", "1.0"⟩) 1 2
      (.ok (0, "out")) ⟨"new", "", []⟩).2.2.2 = true :=
  bad_parse_tolerated 10 (fun _ => ⟨"gfx90a", "104", "cfg", "None", "1.0"⟩)
    1 2 ⟨"new", "", []⟩ "out" (by decide) (by decide)

end MITunaX

namespace MITunaX

/-- The cap loop exits only when `100 * len ≤ len_rows + 99` (and enough
fuel makes the loop equivalent to the unbounded while loop, since every
iteration shortens the list by one). -/
theorem cap_worker_ids_go_le (len_rows : Nat) :
    ∀ (fuel : Nat) (ids : List Nat), ids.length ≤ fuel →
      100 * (cap_worker_ids_go len_rows fuel ids).length ≤ len_rows + 99 := by
  intro fuel
  induction fuel with
  | zero =>
    intro ids h
    simp only [cap_worker_ids_go]
    omega
  | succ fuel ih =>
    intro ids h
    by_cases hc : 100 * ids.length > len_rows + 99
    · rw [cap_worker_ids_go, if_pos hc]
      exact ih ids.dropLast (by simp only [List.length_dropLast]; omega)
    · rw [cap_worker_ids_go, if_neg hc]
      omega

/-- C8: for the update-applicability operation, a machine retains at most
`(pending_config_count + 99) / 100` worker ids — in natural-number
division this is exactly `ceil(pending_config_count / 100)`, witnessed by
the two ceiling inequalities in the statement. -/
theorem applicability_cap (args : TuneArgs) (m : Machine) :
    args.update_applicability = true →
    (effective_worker_ids args m).length ≤ (m.pending_cfgs + 99) / 100 ∧
    m.pending_cfgs ≤ 100 * ((m.pending_cfgs + 99) / 100) ∧
    (∀ k : Nat, m.pending_cfgs ≤ 100 * k →
      (m.pending_cfgs + 99) / 100 ≤ k) := by
  intro h
  refine ⟨?_, by omega, by intro k hk; omega⟩
  simp only [effective_worker_ids, h, if_true, cap_worker_ids]
  have hb := cap_worker_ids_go_le m.pending_cfgs
    (base_worker_ids args m).length (base_worker_ids args m) le_rfl
  rw [Nat.le_div_iff_mul_le (by omega)]
  omega

/-- C8 (witness): with 250 pending configs and 5 candidate process slots
the cap retains at most `ceil(250/100) = 3` workers. -/
theorem applicability_cap_witness :
    (effective_worker_ids
      { restart_machine := false, fin_steps := [], gpu_lim := none,
        update_applicability := true, update_solvers := false,
        check_status := false, init_session := false, execute_cmd := none }
      { id := 1, avail_gpus := [0, 1], num_procs := [0, 1, 2, 3, 4],
        pending_cfgs := 250, status_probe := true }).length ≤
      (250 + 99) / 100 ∧
    250 ≤ 100 * ((250 + 99) / 100) ∧
    (∀ k : Nat, 250 ≤ 100 * k → (250 + 99) / 100 ≤ k) :=
  applicability_cap
    { restart_machine := false, fin_steps := [], gpu_lim := none,
      update_applicability := true, update_solvers := false,
      check_status := false, init_session := false, execute_cmd := none }
    { id := 1, avail_gpus := [0, 1], num_procs := [0, 1, 2, 3, 4],
      pending_cfgs := 250, status_probe := true } rfl

/-- With `--update_solvers` (and no restart flag), the machine loop never
launches a job worker: it aborts with `None` at an empty worker-id list or
breaks out at the first contributing machine, returning the accumulator
unchanged. -/
theorem compose_worker_go_solvers (args : TuneArgs)
    (hs : args.update_solvers = true) (hr : args.restart_machine = false)
    (machines : List Machine) (acc : List (Nat × Nat)) :
    compose_worker_list_go args machines false acc = none ∨
    compose_worker_list_go args machines false acc = some acc := by
  cases machines with
  | nil => right; rfl
  | cons m rest =>
    simp only [compose_worker_list_go, hr, Bool.false_eq_true, if_false]
    by_cases h0 : (effective_worker_ids args m).length = 0
    · left; simp [h0]
    · right; simp [h0, hs]

/-- Without `--update_solvers` (and no restart flag), the machine loop
visits every machine, so the presence of any machine with an empty
worker-id list forces the `None` abort. -/
theorem compose_worker_go_no_solvers (args : TuneArgs)
    (hs : args.update_solvers = false) (hr : args.restart_machine = false) :
    ∀ (machines : List Machine) (fin_done : Bool) (acc : List (Nat × Nat)),
      (∃ m ∈ machines, effective_worker_ids args m = []) →
      compose_worker_list_go args machines fin_done acc = none := by
  intro machines
  induction machines with
  | nil =>
    intro fin_done acc hex
    obtain ⟨m, hm, -⟩ := hex
    exact absurd hm (List.not_mem_nil m)
  | cons m0 rest ih =>
    intro fin_done acc hex
    obtain ⟨m, hm, hme⟩ := hex
    simp only [compose_worker_list_go, hr, Bool.false_eq_true, if_false]
    by_cases h0 : (effective_worker_ids args m0).length = 0
    · simp [h0]
    · have hm' : m ∈ rest := by
        rcases List.mem_cons.mp hm with rfl | hmr
        · simp [hme] at h0
        · exact hmr
      rw [if_neg h0, if_neg (by simp [hs])]
      exact ih fin_done _ ⟨m, hm', hme⟩

/-- C7: if any machine that is not skipped by the restart flag yields zero
eligible worker ids, the whole composition yields no workers: it either
aborts with `None` or (under the singleton `--update_solvers` break, which
precedes every worker launch) returns the empty worker list. -/
theorem zero_worker_machine_yields_no_workers (args : TuneArgs)
    (machines : List Machine) (m : Machine) :
    args.restart_machine = false → m ∈ machines →
    effective_worker_ids args m = [] →
    compose_worker_list args machines = none ∨
    compose_worker_list args machines = some [] := by
  intro hr hm hme
  unfold compose_worker_list
  cases hs : args.update_solvers with
  | true => exact compose_worker_go_solvers args hs hr machines []
  | false =>
    left
    exact compose_worker_go_no_solvers args hs hr machines false []
      ⟨m, hm, hme⟩

/-- C7 (witness): a two-machine pool in which the second machine exposes
no process slots composes to no workers. -/
theorem zero_worker_machine_yields_no_workers_witness :
    compose_worker_list
      { restart_machine := false, fin_steps := [], gpu_lim := none,
        update_applicability := false, update_solvers := false,
        check_status := false, init_session := false, execute_cmd := none }
      [{ id := 1, avail_gpus := [0], num_procs := [0, 1],
         pending_cfgs := 0, status_probe := true },
       { id := 2, avail_gpus := [0], num_procs := [],
         pending_cfgs := 0, status_probe := true }] = none ∨
    compose_worker_list
      { restart_machine := false, fin_steps := [], gpu_lim := none,
        update_applicability := false, update_solvers := false,
        check_status := false, init_session := false, execute_cmd := none }
      [{ id := 1, avail_gpus := [0], num_procs := [0, 1],
         pending_cfgs := 0, status_probe := true },
       { id := 2, avail_gpus := [0], num_procs := [],
         pending_cfgs := 0, status_probe := true }] = some [] :=
  zero_worker_machine_yields_no_workers _ _
    { id := 2, avail_gpus := [0], num_procs := [],
      pending_cfgs := 0, status_probe := true }
    rfl (by simp) rfl

end MITunaX
